import Mathlib

/-!
Verification of the Lambert-problem solver (lambert.py): a shallow embedding
of the numerical core (bisection root finder, alpha/beta angle formulas,
Lagrange time-of-flight equation, branch selection, velocity reconstruction)
over the real numbers, together with theorems settling the specified claims.
Floating-point arithmetic is modelled by exact real arithmetic; the two
leading asserts of the root finder are modelled by an Option result.
-/

namespace Lambert

noncomputable section

/-- Planar position vector, modelling the 2D numpy arrays of the source. -/
abbrev Vec := ℝ × ℝ

/-- Euclidean norm of a planar vector, modelling numpy.linalg.norm. -/
def vnorm (v : Vec) : ℝ := Real.sqrt (v.1 ^ 2 + v.2 ^ 2)

/-- Sign function, modelling numpy.sign on real scalars. -/
def npsign (x : ℝ) : ℝ := if x < 0 then -1 else if 0 < x then 1 else 0

/-- Default target of bisect, from the source signature. -/
def default_target : ℝ := 0

/-- Default iteration budget of bisect, from the source signature. -/
def default_max_iter : ℕ := 1000

/-- Default precision of bisect, from the source signature. -/
def default_precision : ℝ := (10 : ℝ) ^ (-8 : ℤ)

/-- Loop body of bisect. The last argument threads the most recently computed
midpoint, which the source returns when the iteration budget runs out. -/
def bisectGo (f : ℝ → ℝ) (target precision : ℝ) : ℕ → ℝ → ℝ → ℝ → ℝ
  | 0, _, _, m => m
  | n + 1, a, b, _ =>
    if |f ((a + b) / 2) - target| ≤ precision then (a + b) / 2
    else if npsign (f a - target) = npsign (f ((a + b) / 2) - target) then
      bisectGo f target precision n ((a + b) / 2) b ((a + b) / 2)
    else
      bisectGo f target precision n a ((a + b) / 2) ((a + b) / 2)

/-- Bisection root finder, modelling bisect of the source. The two leading
asserts (a < b and max_iter > 0) are modelled by returning none when either
fails. -/
def bisect (f : ℝ → ℝ) (a b target : ℝ) (max_iter : ℕ) (precision : ℝ) : Option ℝ :=
  if a < b ∧ 0 < max_iter then some (bisectGo f target precision max_iter a b 0) else none

/-- Alpha angle, modelling calc_alpha. -/
def calc_alpha (a s : ℝ) (long : Bool) : ℝ :=
  let alpha := 2 * Real.arcsin (Real.sqrt (s / (2 * a)))
  if long then 2 * Real.pi - alpha else alpha

/-- Beta angle, modelling calc_beta. -/
def calc_beta (a s c : ℝ) (rev : Bool) : ℝ :=
  let beta := 2 * Real.arcsin (Real.sqrt ((s - c) / (2 * a)))
  if rev then -beta else beta

/-- Lagrange time-of-flight equation, modelling lagrange_eq. -/
def lagrange_eq (a mu s c : ℝ) (long_arc : Bool) : ℝ :=
  let A := calc_alpha a s long_arc
  let B := calc_beta a s c false
  let p := Real.sqrt (a ^ 3 / mu)
  p * ((A - B) - (Real.sin A - Real.sin B))

/-- Velocity reconstruction, modelling calc_velocity. -/
def calc_velocity (r0 r1 rc : Vec) (a alpha beta mu : ℝ) : Vec × Vec :=
  let rc_norm := (vnorm rc)⁻¹ • rc
  let p := Real.sqrt (mu / (4 * a))
  let x := 1 / Real.tan (beta / 2)
  let y := 1 / Real.tan (alpha / 2)
  let X := x + y
  let Y := x - y
  (p • (X • rc_norm + Y • ((vnorm r0)⁻¹ • r0)), p • (X • rc_norm - Y • ((vnorm r1)⁻¹ • r1)))

/-- Chord length of the transfer geometry (line 357 of the source). -/
def chord (r0 r1 : Vec) : ℝ := vnorm (r1 - r0)

/-- Semiperimeter of the transfer geometry (line 358 of the source). -/
def semiperim (r0 r1 : Vec) : ℝ := (vnorm r0 + vnorm r1 + chord r0 r1) / 2

/-- Branch decision of solve_lambert (lines 363-369 of the source): the
long arc is chosen exactly when the short-arc time of flight at the minimal
semi-major axis is below the requested transfer time. -/
def solve_long_arc (r0 r1 : Vec) (dt mu : ℝ) : Bool :=
  if lagrange_eq (semiperim r0 r1 / 2) mu (semiperim r0 r1) (chord r0 r1) false < dt then true
  else false

/-- Lambert solver, modelling solve_lambert. -/
def solve_lambert (r0 r1 : Vec) (dt mu : ℝ) : Option (ℝ × (Vec × Vec)) :=
  let c := chord r0 r1
  let s := semiperim r0 r1
  let a_min := s / 2
  let a_max := 20 * a_min
  let long_arc := solve_long_arc r0 r1 dt mu
  Option.map
    (fun a =>
      (a, calc_velocity r0 r1 (r1 - r0) a (calc_alpha a s long_arc) (calc_beta a s c false) mu))
    (bisect (fun a => lagrange_eq a mu s c long_arc) a_min a_max dt
      default_max_iter default_precision)

/-- One bracket-update step of the bisection loop, without the early exit. -/
def bstep (f : ℝ → ℝ) (target : ℝ) (st : ℝ × ℝ) : ℝ × ℝ :=
  if npsign (f st.1 - target) = npsign (f ((st.1 + st.2) / 2) - target) then
    ((st.1 + st.2) / 2, st.2)
  else (st.1, (st.1 + st.2) / 2)

/-- Bracket held by the bisection loop after k update steps from (a, b). -/
def stateAt (f : ℝ → ℝ) (target a b : ℝ) (k : ℕ) : ℝ × ℝ := (bstep f target)^[k] (a, b)

/-- Midpoint tested at iteration k of the bisection loop. -/
def midAt (f : ℝ → ℝ) (target a b : ℝ) (k : ℕ) : ℝ :=
  ((stateAt f target a b k).1 + (stateAt f target a b k).2) / 2

/-- Claim C5: lagrange_eq returns sqrt(a^3/mu) times ((alpha - beta) -
(sin alpha - sin beta)), with alpha from calc_alpha under the long_arc flag
and beta from calc_beta with no reversal. -/
theorem lagrange_formula (a mu s c : ℝ) (long_arc : Bool) :
    lagrange_eq a mu s c long_arc =
      Real.sqrt (a ^ 3 / mu) *
        ((calc_alpha a s long_arc - calc_beta a s c false) -
          (Real.sin (calc_alpha a s long_arc) - Real.sin (calc_beta a s c false))) := rfl

/-- Claim C6: with the square-root/arcsine arguments in domain, calc_alpha
gives 2 arcsin(sqrt(s/(2a))) on the short branch and 2 pi minus that value on
the long branch, and calc_beta gives 2 arcsin(sqrt((s-c)/(2a))), negated when
reversed. -/
theorem angle_formulas (a s c : ℝ)
    (h1 : 0 ≤ s / (2 * a)) (h2 : s / (2 * a) ≤ 1)
    (h3 : 0 ≤ (s - c) / (2 * a)) (h4 : (s - c) / (2 * a) ≤ 1) :
    calc_alpha a s false = 2 * Real.arcsin (Real.sqrt (s / (2 * a))) ∧
    calc_alpha a s true = 2 * Real.pi - 2 * Real.arcsin (Real.sqrt (s / (2 * a))) ∧
    calc_beta a s c false = 2 * Real.arcsin (Real.sqrt ((s - c) / (2 * a))) ∧
    calc_beta a s c true = -(2 * Real.arcsin (Real.sqrt ((s - c) / (2 * a)))) :=
  ⟨rfl, rfl, rfl, rfl⟩

/-- Witness for angle_formulas at a = 1, s = 1, c = 0, where all the domain
hypotheses hold. -/
theorem angle_formulas_witness :
    (0 ≤ (1 : ℝ) / (2 * 1) ∧ (1 : ℝ) / (2 * 1) ≤ 1 ∧
      0 ≤ ((1 : ℝ) - 0) / (2 * 1) ∧ ((1 : ℝ) - 0) / (2 * 1) ≤ 1) ∧
    (calc_alpha 1 1 false = 2 * Real.arcsin (Real.sqrt ((1 : ℝ) / (2 * 1))) ∧
      calc_alpha 1 1 true = 2 * Real.pi - 2 * Real.arcsin (Real.sqrt ((1 : ℝ) / (2 * 1))) ∧
      calc_beta 1 1 0 false = 2 * Real.arcsin (Real.sqrt (((1 : ℝ) - 0) / (2 * 1))) ∧
      calc_beta 1 1 0 true = -(2 * Real.arcsin (Real.sqrt (((1 : ℝ) - 0) / (2 * 1))))) :=
  ⟨⟨by norm_num, by norm_num, by norm_num, by norm_num⟩,
    angle_formulas 1 1 0 (by norm_num) (by norm_num) (by norm_num) (by norm_num)⟩

/-- Claim C1: the long-arc branch is selected exactly when the short-arc
Lagrange time at a_min = s/2 is strictly below dt, the short-arc branch is
selected exactly when it is at least dt, and the selected flag is the one
used for the root-finding call and the final angle recomputation. -/
theorem branch_selection (r0 r1 : Vec) (dt mu : ℝ) :
    (solve_long_arc r0 r1 dt mu = true ↔
      lagrange_eq (semiperim r0 r1 / 2) mu (semiperim r0 r1) (chord r0 r1) false < dt) ∧
    (solve_long_arc r0 r1 dt mu = false ↔
      dt ≤ lagrange_eq (semiperim r0 r1 / 2) mu (semiperim r0 r1) (chord r0 r1) false) ∧
    solve_lambert r0 r1 dt mu =
      Option.map
        (fun a =>
          (a, calc_velocity r0 r1 (r1 - r0) a
            (calc_alpha a (semiperim r0 r1) (solve_long_arc r0 r1 dt mu))
            (calc_beta a (semiperim r0 r1) (chord r0 r1) false) mu))
        (bisect
          (fun a => lagrange_eq a mu (semiperim r0 r1) (chord r0 r1) (solve_long_arc r0 r1 dt mu))
          (semiperim r0 r1 / 2) (20 * (semiperim r0 r1 / 2)) dt
          default_max_iter default_precision) := by
  refine ⟨?_, ?_, rfl⟩
  · unfold solve_long_arc
    by_cases h : lagrange_eq (semiperim r0 r1 / 2) mu (semiperim r0 r1) (chord r0 r1) false < dt
    · simp [h]
    · simp [h]
  · unfold solve_long_arc
    by_cases h : lagrange_eq (semiperim r0 r1 / 2) mu (semiperim r0 r1) (chord r0 r1) false < dt
    · simp [h, not_le.mpr h]
    · simp [h, not_lt.mp h]

lemma bisectGo_zero (f : ℝ → ℝ) (t p a b m : ℝ) : bisectGo f t p 0 a b m = m := rfl

lemma bisectGo_succ (f : ℝ → ℝ) (t p : ℝ) (n : ℕ) (a b m : ℝ) :
    bisectGo f t p (n + 1) a b m =
      if |f ((a + b) / 2) - t| ≤ p then (a + b) / 2
      else if npsign (f a - t) = npsign (f ((a + b) / 2) - t) then
        bisectGo f t p n ((a + b) / 2) b ((a + b) / 2)
      else bisectGo f t p n a ((a + b) / 2) ((a + b) / 2) := rfl

lemma midAt_zero (f : ℝ → ℝ) (t a b : ℝ) : midAt f t a b 0 = (a + b) / 2 := by
  simp [midAt, stateAt]

lemma stateAt_shift (f : ℝ → ℝ) (t a b : ℝ) (k : ℕ) :
    stateAt f t (bstep f t (a, b)).1 (bstep f t (a, b)).2 k = stateAt f t a b (k + 1) := by
  simp [stateAt, Function.iterate_succ_apply]

lemma midAt_shift (f : ℝ → ℝ) (t a b : ℝ) (k : ℕ) :
    midAt f t (bstep f t (a, b)).1 (bstep f t (a, b)).2 k = midAt f t a b (k + 1) := by
  unfold midAt
  rw [stateAt_shift]

lemma bisectGo_char (f : ℝ → ℝ) (t p : ℝ) :
    ∀ n : ℕ, 0 < n → ∀ a b m : ℝ,
      (∃ k, k < n ∧ |f (midAt f t a b k) - t| ≤ p ∧
        (∀ j, j < k → p < |f (midAt f t a b j) - t|) ∧
        bisectGo f t p n a b m = midAt f t a b k) ∨
      ((∀ j, j < n → p < |f (midAt f t a b j) - t|) ∧
        bisectGo f t p n a b m = midAt f t a b (n - 1)) := by
  intro n
  induction n with
  | zero => intro h; exact absurd h (lt_irrefl 0)
  | succ n ih =>
    intro _ a b m
    have hm0 : midAt f t a b 0 = (a + b) / 2 := midAt_zero f t a b
    by_cases hc : |f ((a + b) / 2) - t| ≤ p
    · left
      exact ⟨0, Nat.succ_pos n, by rwa [hm0], fun j hj => absurd hj (Nat.not_lt_zero j),
        by rw [bisectGo_succ, if_pos hc, hm0]⟩
    · have hstep : bisectGo f t p (n + 1) a b m =
          bisectGo f t p n (bstep f t (a, b)).1 (bstep f t (a, b)).2 ((a + b) / 2) := by
        rw [bisectGo_succ, if_neg hc]
        by_cases hs : npsign (f a - t) = npsign (f ((a + b) / 2) - t)
        · rw [if_pos hs]; simp [bstep, hs]
        · rw [if_neg hs]; simp [bstep, hs]
      cases n with
      | zero =>
        right
        refine ⟨?_, ?_⟩
        · intro j hj
          have hj0 : j = 0 := Nat.lt_one_iff.mp hj
          rw [hj0, hm0]
          exact not_le.mp hc
        · rw [hstep, bisectGo_zero]
          simpa using hm0.symm
      | succ n2 =>
        rcases ih (Nat.succ_pos n2) (bstep f t (a, b)).1 (bstep f t (a, b)).2 ((a + b) / 2) with
          ⟨k, hk, hconv, hbefore, heq⟩ | ⟨hall, heq⟩
        · left
          refine ⟨k + 1, Nat.succ_lt_succ hk, ?_, ?_, ?_⟩
          · rwa [midAt_shift] at hconv
          · intro j hj
            cases j with
            | zero => rw [hm0]; exact not_le.mp hc
            | succ j2 =>
              rw [← midAt_shift]
              exact hbefore j2 (Nat.lt_of_succ_lt_succ hj)
          · rw [hstep, heq, midAt_shift]
        · right
          refine ⟨?_, ?_⟩
          · intro j hj
            cases j with
            | zero => rw [hm0]; exact not_le.mp hc
            | succ j2 =>
              rw [← midAt_shift]
              exact hall j2 (Nat.lt_of_succ_lt_succ hj)
          · rw [hstep, heq]
            simp only [Nat.add_sub_cancel]
            exact midAt_shift f t a b n2

lemma bisectGo_mem (f : ℝ → ℝ) (t p : ℝ) :
    ∀ n : ℕ, 0 < n → ∀ a b m : ℝ, a ≤ b →
      a ≤ bisectGo f t p n a b m ∧ bisectGo f t p n a b m ≤ b := by
  intro n
  induction n with
  | zero => intro h; exact absurd h (lt_irrefl 0)
  | succ n ih =>
    intro _ a b m hab
    have hmid1 : a ≤ (a + b) / 2 := by linarith
    have hmid2 : (a + b) / 2 ≤ b := by linarith
    rw [bisectGo_succ]
    by_cases hc : |f ((a + b) / 2) - t| ≤ p
    · rw [if_pos hc]; exact ⟨hmid1, hmid2⟩
    · rw [if_neg hc]
      by_cases hs : npsign (f a - t) = npsign (f ((a + b) / 2) - t)
      · rw [if_pos hs]
        cases n with
        | zero => rw [bisectGo_zero]; exact ⟨hmid1, hmid2⟩
        | succ n2 =>
          have h2 := ih (Nat.succ_pos n2) ((a + b) / 2) b ((a + b) / 2) hmid2
          exact ⟨le_trans hmid1 h2.1, h2.2⟩
      · rw [if_neg hs]
        cases n with
        | zero => rw [bisectGo_zero]; exact ⟨hmid1, hmid2⟩
        | succ n2 =>
          have h2 := ih (Nat.succ_pos n2) a ((a + b) / 2) ((a + b) / 2) hmid1
          exact ⟨h2.1, le_trans h2.2 hmid2⟩

/-- Claim C2: bisect is classic bisection. On a valid bracket it returns
the first midpoint whose residual is within precision, and the last computed
midpoint when the budget runs out; the half kept at each step is decided by
comparing the sign of f(a) - target with the sign of f(mid) - target, and the
signature defaults are target 0, max_iter 1000, precision 10^(-8). -/
theorem bisect_characterization (f : ℝ → ℝ) (a b t p : ℝ) (n : ℕ)
    (hab : a < b) (hn : 0 < n) :
    default_target = 0 ∧ default_max_iter = 1000 ∧ default_precision = (10 : ℝ) ^ (-8 : ℤ) ∧
    ((∃ k, k < n ∧ |f (midAt f t a b k) - t| ≤ p ∧
        (∀ j, j < k → p < |f (midAt f t a b j) - t|) ∧
        bisect f a b t n p = some (midAt f t a b k)) ∨
      ((∀ j, j < n → p < |f (midAt f t a b j) - t|) ∧
        bisect f a b t n p = some (midAt f t a b (n - 1)))) := by
  refine ⟨rfl, rfl, rfl, ?_⟩
  have hb : bisect f a b t n p = some (bisectGo f t p n a b 0) := by
    unfold bisect; rw [if_pos ⟨hab, hn⟩]
  rcases bisectGo_char f t p n hn a b 0 with ⟨k, hk, h1, h2, h3⟩ | ⟨h1, h2⟩
  · exact Or.inl ⟨k, hk, h1, h2, by rw [hb, h3]⟩
  · exact Or.inr ⟨h1, by rw [hb, h2]⟩

/-- Witness for bisect_characterization on the identity function over the
bracket zero to two with target one, precision one and a single iteration. -/
theorem bisect_characterization_witness :
    ((0 : ℝ) < 2 ∧ (0 : ℕ) < 1) ∧
    (default_target = 0 ∧ default_max_iter = 1000 ∧ default_precision = (10 : ℝ) ^ (-8 : ℤ) ∧
      ((∃ k, k < 1 ∧ |(fun x : ℝ => x) (midAt (fun x : ℝ => x) 1 0 2 k) - 1| ≤ 1 ∧
          (∀ j, j < k → (1 : ℝ) < |(fun x : ℝ => x) (midAt (fun x : ℝ => x) 1 0 2 j) - 1|) ∧
          bisect (fun x : ℝ => x) 0 2 1 1 1 = some (midAt (fun x : ℝ => x) 1 0 2 k)) ∨
        ((∀ j, j < 1 → (1 : ℝ) < |(fun x : ℝ => x) (midAt (fun x : ℝ => x) 1 0 2 j) - 1|) ∧
          bisect (fun x : ℝ => x) 0 2 1 1 1 = some (midAt (fun x : ℝ => x) 1 0 2 (1 - 1))))) :=
  ⟨⟨by norm_num, by norm_num⟩,
    bisect_characterization (fun x : ℝ => x) 0 2 1 1 1 (by norm_num) (by norm_num)⟩

/-- Claim C9: bisect fails fast exactly when the bracket is not ordered or
the iteration budget is not positive; otherwise it returns a numeric value
that is one of the first max_iter midpoints. -/
theorem bisect_guard (f : ℝ → ℝ) (a b t p : ℝ) (n : ℕ) :
    (bisect f a b t n p = none ↔ (b ≤ a ∨ n = 0)) ∧
    (∀ r, bisect f a b t n p = some r → ∃ k, k < n ∧ r = midAt f t a b k) := by
  constructor
  · unfold bisect
    by_cases h : a < b ∧ 0 < n
    · rw [if_pos h]
      exact iff_of_false (Option.some_ne_none _)
        (not_or.mpr ⟨not_le.mpr h.1, Nat.pos_iff_ne_zero.mp h.2⟩)
    · rw [if_neg h]
      refine iff_of_true rfl ?_
      rcases not_and_or.mp h with h1 | h2
      · exact Or.inl (not_lt.mp h1)
      · exact Or.inr (Nat.eq_zero_of_not_pos h2)
  · intro r hr
    unfold bisect at hr
    by_cases h : a < b ∧ 0 < n
    · rw [if_pos h] at hr
      have hr2 : r = bisectGo f t p n a b 0 := (Option.some_inj.mp hr).symm
      rcases bisectGo_char f t p n h.2 a b 0 with ⟨k, hk, _, _, h3⟩ | ⟨_, h2⟩
      · exact ⟨k, hk, by rw [hr2, h3]⟩
      · exact ⟨n - 1, Nat.sub_lt h.2 one_pos, by rw [hr2, h2]⟩
    · rw [if_neg h] at hr
      cases hr

lemma bisect_id_eval : bisect (fun x : ℝ => x) 0 2 1 1 1 = some 1 := by
  unfold bisect
  rw [if_pos ⟨by norm_num, by norm_num⟩]
  rw [show (1 : ℕ) = 0 + 1 from rfl, bisectGo_succ, if_pos (by norm_num)]
  norm_num

/-- Witness for bisect_guard: on the identity function with a valid bracket
the finder returns a value, and that value is a tested midpoint. -/
theorem bisect_guard_witness :
    bisect (fun x : ℝ => x) 0 2 1 1 1 = some 1 ∧
    (∃ k, k < 1 ∧ (1 : ℝ) = midAt (fun x : ℝ => x) 1 0 2 k) :=
  ⟨bisect_id_eval, (bisect_guard (fun x : ℝ => x) 0 2 1 1 1).2 1 bisect_id_eval⟩

/-- The semi-major axis produced inside solve_lambert, with the solver's
closure, bracket and default root-finder parameters. -/
def solve_a (r0 r1 : Vec) (dt mu : ℝ) : ℝ :=
  bisectGo
    (fun a => lagrange_eq a mu (semiperim r0 r1) (chord r0 r1) (solve_long_arc r0 r1 dt mu))
    dt default_precision default_max_iter (semiperim r0 r1 / 2) (20 * (semiperim r0 r1 / 2)) 0

lemma solve_lambert_eq (r0 r1 : Vec) (dt mu : ℝ) (hs : 0 < semiperim r0 r1) :
    solve_lambert r0 r1 dt mu =
      some (solve_a r0 r1 dt mu,
        calc_velocity r0 r1 (r1 - r0) (solve_a r0 r1 dt mu)
          (calc_alpha (solve_a r0 r1 dt mu) (semiperim r0 r1) (solve_long_arc r0 r1 dt mu))
          (calc_beta (solve_a r0 r1 dt mu) (semiperim r0 r1) (chord r0 r1) false) mu) := by
  simp only [solve_lambert, bisect]
  rw [if_pos ⟨(by linarith : semiperim r0 r1 / 2 < 20 * (semiperim r0 r1 / 2)),
    (by norm_num [default_max_iter] : 0 < default_max_iter)⟩]
  rfl

/-- Claim C4: any value returned by bisect lies inside its initial bracket,
and consequently the semi-major axis returned by solve_lambert always lies
between a_min = s/2 and a_max = 20 a_min. -/
theorem bracket_invariant :
    (∀ (f : ℝ → ℝ) (a b t p : ℝ) (n : ℕ) (r : ℝ),
        bisect f a b t n p = some r → a ≤ r ∧ r ≤ b) ∧
    (∀ (r0 r1 : Vec) (dt mu : ℝ), 0 < semiperim r0 r1 →
        ∃ a v1 v2, solve_lambert r0 r1 dt mu = some (a, v1, v2) ∧
          semiperim r0 r1 / 2 ≤ a ∧ a ≤ 20 * (semiperim r0 r1 / 2)) := by
  have hgen : ∀ (f : ℝ → ℝ) (a b t p : ℝ) (n : ℕ) (r : ℝ),
      bisect f a b t n p = some r → a ≤ r ∧ r ≤ b := by
    intro f a b t p n r hr
    unfold bisect at hr
    by_cases h : a < b ∧ 0 < n
    · rw [if_pos h] at hr
      have hr2 : r = bisectGo f t p n a b 0 := (Option.some_inj.mp hr).symm
      rw [hr2]
      exact bisectGo_mem f t p n h.2 a b 0 h.1.le
    · rw [if_neg h] at hr
      cases hr
  refine ⟨hgen, ?_⟩
  intro r0 r1 dt mu hs
  have hmem := bisectGo_mem
    (fun a => lagrange_eq a mu (semiperim r0 r1) (chord r0 r1) (solve_long_arc r0 r1 dt mu))
    dt default_precision default_max_iter (by norm_num [default_max_iter])
    (semiperim r0 r1 / 2) (20 * (semiperim r0 r1 / 2)) 0 (by linarith)
  exact ⟨solve_a r0 r1 dt mu, _, _, solve_lambert_eq r0 r1 dt mu hs, hmem.1, hmem.2⟩

lemma vnorm_mk (x y : ℝ) : vnorm (x, y) = Real.sqrt (x ^ 2 + y ^ 2) := rfl

lemma vnorm_two_zero : vnorm ((2 : ℝ), (0 : ℝ)) = 2 := by
  rw [vnorm_mk, show (2 : ℝ) ^ 2 + 0 ^ 2 = 2 ^ 2 by norm_num,
    Real.sqrt_sq (by norm_num : (0 : ℝ) ≤ 2)]

lemma semiperim_deg : semiperim ((2 : ℝ), (0 : ℝ)) ((2 : ℝ), (0 : ℝ)) = 2 := by
  unfold semiperim chord
  rw [show ((2 : ℝ), (0 : ℝ)) - ((2 : ℝ), (0 : ℝ)) = ((0 : ℝ), (0 : ℝ)) by
    rw [Prod.mk_sub_mk]; norm_num]
  rw [vnorm_two_zero, vnorm_mk]
  norm_num

/-- Witness for bracket_invariant at the degenerate geometry r0 = r1 = (2, 0),
where the semiperimeter is two. -/
theorem bracket_invariant_witness :
    0 < semiperim ((2 : ℝ), (0 : ℝ)) ((2 : ℝ), (0 : ℝ)) ∧
    (∃ a v1 v2, solve_lambert ((2 : ℝ), (0 : ℝ)) ((2 : ℝ), (0 : ℝ)) 1 1 = some (a, v1, v2) ∧
      semiperim ((2 : ℝ), (0 : ℝ)) ((2 : ℝ), (0 : ℝ)) / 2 ≤ a ∧
      a ≤ 20 * (semiperim ((2 : ℝ), (0 : ℝ)) ((2 : ℝ), (0 : ℝ)) / 2)) := by
  have hs : 0 < semiperim ((2 : ℝ), (0 : ℝ)) ((2 : ℝ), (0 : ℝ)) := by
    rw [semiperim_deg]; norm_num
  exact ⟨hs, bracket_invariant.2 ((2 : ℝ), (0 : ℝ)) ((2 : ℝ), (0 : ℝ)) 1 1 hs⟩

lemma one_div_tan_eq_cot (x : ℝ) (hx : Real.tan x ≠ 0) : 1 / Real.tan x = Real.cot x := by
  have hcos : Real.cos x ≠ 0 := by
    intro h
    exact hx (by rw [Real.tan_eq_sin_div_cos, h, div_zero])
  rw [Real.tan_eq_sin_div_cos, Real.cot_eq_cos_div_sin, one_div_div]

/-- Claim C7: with nonzero norms and nonzero half-angle tangents,
calc_velocity returns v1 = p (X rc_norm + Y r0_unit) and
v2 = p (X rc_norm - Y r1_unit) with p = sqrt(mu/(4a)),
X = cot(beta/2) + cot(alpha/2) and Y = cot(beta/2) - cot(alpha/2). -/
theorem velocity_formula (r0 r1 rc : Vec) (a alpha beta mu : ℝ)
    (h0 : vnorm r0 ≠ 0) (h1 : vnorm r1 ≠ 0) (hc : vnorm rc ≠ 0)
    (hta : Real.tan (alpha / 2) ≠ 0) (htb : Real.tan (beta / 2) ≠ 0) :
    calc_velocity r0 r1 rc a alpha beta mu =
      (Real.sqrt (mu / (4 * a)) •
        ((Real.cot (beta / 2) + Real.cot (alpha / 2)) • ((vnorm rc)⁻¹ • rc) +
          (Real.cot (beta / 2) - Real.cot (alpha / 2)) • ((vnorm r0)⁻¹ • r0)),
       Real.sqrt (mu / (4 * a)) •
        ((Real.cot (beta / 2) + Real.cot (alpha / 2)) • ((vnorm rc)⁻¹ • rc) -
          (Real.cot (beta / 2) - Real.cot (alpha / 2)) • ((vnorm r1)⁻¹ • r1))) := by
  simp only [calc_velocity]
  rw [one_div_tan_eq_cot _ hta, one_div_tan_eq_cot _ htb]

lemma vnorm_one_zero : vnorm ((1 : ℝ), (0 : ℝ)) = 1 := by
  rw [vnorm_mk, show (1 : ℝ) ^ 2 + 0 ^ 2 = 1 by norm_num, Real.sqrt_one]

lemma vnorm_zero_one : vnorm ((0 : ℝ), (1 : ℝ)) = 1 := by
  rw [vnorm_mk, show (0 : ℝ) ^ 2 + 1 ^ 2 = 1 by norm_num, Real.sqrt_one]

lemma tan_quarter_pi_ne : Real.tan (Real.pi / 2 / 2) ≠ 0 := by
  rw [show Real.pi / 2 / 2 = Real.pi / 4 by ring, Real.tan_pi_div_four]
  norm_num

/-- Witness for velocity_formula with unit-norm positions, a diagonal chord
and right half-angles, where all hypotheses hold. -/
theorem velocity_formula_witness :
    (vnorm ((1 : ℝ), (0 : ℝ)) ≠ 0 ∧ vnorm ((0 : ℝ), (1 : ℝ)) ≠ 0 ∧
      vnorm ((1 : ℝ), (1 : ℝ)) ≠ 0 ∧ Real.tan (Real.pi / 2 / 2) ≠ 0) ∧
    calc_velocity ((1 : ℝ), (0 : ℝ)) ((0 : ℝ), (1 : ℝ)) ((1 : ℝ), (1 : ℝ)) 1 (Real.pi / 2)
        (Real.pi / 2) 1 =
      (Real.sqrt (1 / (4 * 1)) •
        ((Real.cot (Real.pi / 2 / 2) + Real.cot (Real.pi / 2 / 2)) •
            ((vnorm ((1 : ℝ), (1 : ℝ)))⁻¹ • ((1 : ℝ), (1 : ℝ))) +
          (Real.cot (Real.pi / 2 / 2) - Real.cot (Real.pi / 2 / 2)) •
            ((vnorm ((1 : ℝ), (0 : ℝ)))⁻¹ • ((1 : ℝ), (0 : ℝ)))),
       Real.sqrt (1 / (4 * 1)) •
        ((Real.cot (Real.pi / 2 / 2) + Real.cot (Real.pi / 2 / 2)) •
            ((vnorm ((1 : ℝ), (1 : ℝ)))⁻¹ • ((1 : ℝ), (1 : ℝ))) -
          (Real.cot (Real.pi / 2 / 2) - Real.cot (Real.pi / 2 / 2)) •
            ((vnorm ((0 : ℝ), (1 : ℝ)))⁻¹ • ((0 : ℝ), (1 : ℝ))))) := by
  have h0 : vnorm ((1 : ℝ), (0 : ℝ)) ≠ 0 := by rw [vnorm_one_zero]; norm_num
  have h1 : vnorm ((0 : ℝ), (1 : ℝ)) ≠ 0 := by rw [vnorm_zero_one]; norm_num
  have hc : vnorm ((1 : ℝ), (1 : ℝ)) ≠ 0 := by
    rw [vnorm_mk]
    exact (Real.sqrt_pos.mpr (by norm_num)).ne'
  exact ⟨⟨h0, h1, hc, tan_quarter_pi_ne⟩,
    velocity_formula _ _ _ 1 _ _ 1 h0 h1 hc tan_quarter_pi_ne tan_quarter_pi_ne⟩

lemma vnorm_nonneg (v : Vec) : 0 ≤ vnorm v := Real.sqrt_nonneg _

lemma vnorm_eq_complex (v : Vec) : vnorm v = Complex.abs ⟨v.1, v.2⟩ := by
  rw [vnorm, Complex.abs_apply, Complex.normSq_mk]
  congr 1
  ring

lemma vnorm_triangle (r0 r1 : Vec) : chord r0 r1 ≤ vnorm r0 + vnorm r1 := by
  rw [chord, vnorm_eq_complex, vnorm_eq_complex, vnorm_eq_complex]
  have hsub : (⟨(r1 - r0).1, (r1 - r0).2⟩ : ℂ) = ⟨r1.1, r1.2⟩ - ⟨r0.1, r0.2⟩ := by
    simp [Complex.ext_iff, Prod.fst_sub, Prod.snd_sub]
  rw [hsub]
  have h := Complex.abs.add_le ⟨r1.1, r1.2⟩ (-(⟨r0.1, r0.2⟩ : ℂ))
  rw [← sub_eq_add_neg, Complex.abs.map_neg] at h
  linarith

lemma stateAt_invariant (f : ℝ → ℝ) (t lo hi : ℝ) (hlohi : lo ≤ hi) :
    ∀ k, lo ≤ (stateAt f t lo hi k).1 ∧
      (stateAt f t lo hi k).1 ≤ (stateAt f t lo hi k).2 ∧ (stateAt f t lo hi k).2 ≤ hi := by
  intro k
  induction k with
  | zero => simpa [stateAt] using hlohi
  | succ k ih =>
    have hstep : stateAt f t lo hi (k + 1) = bstep f t (stateAt f t lo hi k) := by
      simp [stateAt, Function.iterate_succ_apply']
    rw [hstep]
    rcases ih with ⟨ha, hm, hb⟩
    unfold bstep
    by_cases hs : npsign (f (stateAt f t lo hi k).1 - t) =
        npsign (f (((stateAt f t lo hi k).1 + (stateAt f t lo hi k).2) / 2) - t)
    · rw [if_pos hs]
      exact ⟨by dsimp only; linarith, by dsimp only; linarith, by dsimp only; linarith⟩
    · rw [if_neg hs]
      exact ⟨by dsimp only; linarith, by dsimp only; linarith, by dsimp only; linarith⟩

/-- Claim C10: with nonzero position norms and distinct endpoints, every
bracket endpoint and every midpoint visited by the bisection over the
Lagrange closure stays in [a_min, a_max], and at every such candidate the
arguments s/(2a) and (s-c)/(2a) of the square root and arcsine lie in
[0, 1]. -/
theorem domain_safety (r0 r1 : Vec) (dt mu : ℝ)
    (h0 : 0 < vnorm r0) (h1 : 0 < vnorm r1) (hne : r0 ≠ r1) (k : ℕ) :
    (semiperim r0 r1 / 2 ≤
        (stateAt (fun x => lagrange_eq x mu (semiperim r0 r1) (chord r0 r1)
          (solve_long_arc r0 r1 dt mu)) dt
          (semiperim r0 r1 / 2) (20 * (semiperim r0 r1 / 2)) k).1 ∧
      (stateAt (fun x => lagrange_eq x mu (semiperim r0 r1) (chord r0 r1)
          (solve_long_arc r0 r1 dt mu)) dt
          (semiperim r0 r1 / 2) (20 * (semiperim r0 r1 / 2)) k).2 ≤
        20 * (semiperim r0 r1 / 2) ∧
      semiperim r0 r1 / 2 ≤
        midAt (fun x => lagrange_eq x mu (semiperim r0 r1) (chord r0 r1)
          (solve_long_arc r0 r1 dt mu)) dt
          (semiperim r0 r1 / 2) (20 * (semiperim r0 r1 / 2)) k ∧
      midAt (fun x => lagrange_eq x mu (semiperim r0 r1) (chord r0 r1)
          (solve_long_arc r0 r1 dt mu)) dt
          (semiperim r0 r1 / 2) (20 * (semiperim r0 r1 / 2)) k ≤
        20 * (semiperim r0 r1 / 2)) ∧
    (∀ x : ℝ, semiperim r0 r1 / 2 ≤ x → x ≤ 20 * (semiperim r0 r1 / 2) →
      0 ≤ semiperim r0 r1 / (2 * x) ∧ semiperim r0 r1 / (2 * x) ≤ 1 ∧
        0 ≤ (semiperim r0 r1 - chord r0 r1) / (2 * x) ∧
        (semiperim r0 r1 - chord r0 r1) / (2 * x) ≤ 1) := by
  have hcn : 0 ≤ chord r0 r1 := vnorm_nonneg _
  have hs : 0 < semiperim r0 r1 := by
    unfold semiperim
    linarith
  have hab : semiperim r0 r1 / 2 ≤ 20 * (semiperim r0 r1 / 2) := by linarith
  have hinv := stateAt_invariant
    (fun x => lagrange_eq x mu (semiperim r0 r1) (chord r0 r1) (solve_long_arc r0 r1 dt mu))
    dt (semiperim r0 r1 / 2) (20 * (semiperim r0 r1 / 2)) hab k
  rcases hinv with ⟨hi1, hi2, hi3⟩
  constructor
  · refine ⟨hi1, hi3, ?_, ?_⟩
    · unfold midAt
      linarith
    · unfold midAt
      linarith
  · intro x hx1 hx2
    have hxpos : 0 < x := lt_of_lt_of_le (by linarith) hx1
    have h2x : 0 < 2 * x := by linarith
    have htri : semiperim r0 r1 - chord r0 r1 ≥ 0 := by
      have := vnorm_triangle r0 r1
      unfold semiperim
      linarith
    refine ⟨div_nonneg hs.le h2x.le, ?_, div_nonneg htri h2x.le, ?_⟩
    · rw [div_le_one h2x]
      linarith
    · rw [div_le_one h2x]
      linarith

lemma vnorm_zero_two : vnorm ((0 : ℝ), (2 : ℝ)) = 2 := by
  rw [vnorm_mk, show (0 : ℝ) ^ 2 + 2 ^ 2 = 2 ^ 2 by norm_num,
    Real.sqrt_sq (by norm_num : (0 : ℝ) ≤ 2)]

/-- Witness for domain_safety at r0 = (2, 0), r1 = (0, 2), the first
iteration of the loop. -/
theorem domain_safety_witness :
    (0 < vnorm ((2 : ℝ), (0 : ℝ)) ∧ 0 < vnorm ((0 : ℝ), (2 : ℝ)) ∧
      ((2 : ℝ), (0 : ℝ)) ≠ ((0 : ℝ), (2 : ℝ))) ∧
    ((semiperim ((2 : ℝ), (0 : ℝ)) ((0 : ℝ), (2 : ℝ)) / 2 ≤
        (stateAt (fun x => lagrange_eq x 1 (semiperim ((2 : ℝ), (0 : ℝ)) ((0 : ℝ), (2 : ℝ)))
          (chord ((2 : ℝ), (0 : ℝ)) ((0 : ℝ), (2 : ℝ)))
          (solve_long_arc ((2 : ℝ), (0 : ℝ)) ((0 : ℝ), (2 : ℝ)) 1 1)) 1
          (semiperim ((2 : ℝ), (0 : ℝ)) ((0 : ℝ), (2 : ℝ)) / 2)
          (20 * (semiperim ((2 : ℝ), (0 : ℝ)) ((0 : ℝ), (2 : ℝ)) / 2)) 0).1 ∧
      (stateAt (fun x => lagrange_eq x 1 (semiperim ((2 : ℝ), (0 : ℝ)) ((0 : ℝ), (2 : ℝ)))
          (chord ((2 : ℝ), (0 : ℝ)) ((0 : ℝ), (2 : ℝ)))
          (solve_long_arc ((2 : ℝ), (0 : ℝ)) ((0 : ℝ), (2 : ℝ)) 1 1)) 1
          (semiperim ((2 : ℝ), (0 : ℝ)) ((0 : ℝ), (2 : ℝ)) / 2)
          (20 * (semiperim ((2 : ℝ), (0 : ℝ)) ((0 : ℝ), (2 : ℝ)) / 2)) 0).2 ≤
        20 * (semiperim ((2 : ℝ), (0 : ℝ)) ((0 : ℝ), (2 : ℝ)) / 2) ∧
      semiperim ((2 : ℝ), (0 : ℝ)) ((0 : ℝ), (2 : ℝ)) / 2 ≤
        midAt (fun x => lagrange_eq x 1 (semiperim ((2 : ℝ), (0 : ℝ)) ((0 : ℝ), (2 : ℝ)))
          (chord ((2 : ℝ), (0 : ℝ)) ((0 : ℝ), (2 : ℝ)))
          (solve_long_arc ((2 : ℝ), (0 : ℝ)) ((0 : ℝ), (2 : ℝ)) 1 1)) 1
          (semiperim ((2 : ℝ), (0 : ℝ)) ((0 : ℝ), (2 : ℝ)) / 2)
          (20 * (semiperim ((2 : ℝ), (0 : ℝ)) ((0 : ℝ), (2 : ℝ)) / 2)) 0 ∧
      midAt (fun x => lagrange_eq x 1 (semiperim ((2 : ℝ), (0 : ℝ)) ((0 : ℝ), (2 : ℝ)))
          (chord ((2 : ℝ), (0 : ℝ)) ((0 : ℝ), (2 : ℝ)))
          (solve_long_arc ((2 : ℝ), (0 : ℝ)) ((0 : ℝ), (2 : ℝ)) 1 1)) 1
          (semiperim ((2 : ℝ), (0 : ℝ)) ((0 : ℝ), (2 : ℝ)) / 2)
          (20 * (semiperim ((2 : ℝ), (0 : ℝ)) ((0 : ℝ), (2 : ℝ)) / 2)) 0 ≤
        20 * (semiperim ((2 : ℝ), (0 : ℝ)) ((0 : ℝ), (2 : ℝ)) / 2)) ∧
    (∀ x : ℝ, semiperim ((2 : ℝ), (0 : ℝ)) ((0 : ℝ), (2 : ℝ)) / 2 ≤ x →
      x ≤ 20 * (semiperim ((2 : ℝ), (0 : ℝ)) ((0 : ℝ), (2 : ℝ)) / 2) →
      0 ≤ semiperim ((2 : ℝ), (0 : ℝ)) ((0 : ℝ), (2 : ℝ)) / (2 * x) ∧
        semiperim ((2 : ℝ), (0 : ℝ)) ((0 : ℝ), (2 : ℝ)) / (2 * x) ≤ 1 ∧
        0 ≤ (semiperim ((2 : ℝ), (0 : ℝ)) ((0 : ℝ), (2 : ℝ)) -
          chord ((2 : ℝ), (0 : ℝ)) ((0 : ℝ), (2 : ℝ))) / (2 * x) ∧
        (semiperim ((2 : ℝ), (0 : ℝ)) ((0 : ℝ), (2 : ℝ)) -
          chord ((2 : ℝ), (0 : ℝ)) ((0 : ℝ), (2 : ℝ))) / (2 * x) ≤ 1)) := by
  have h0 : 0 < vnorm ((2 : ℝ), (0 : ℝ)) := by rw [vnorm_two_zero]; norm_num
  have h1 : 0 < vnorm ((0 : ℝ), (2 : ℝ)) := by rw [vnorm_zero_two]; norm_num
  have hne : ((2 : ℝ), (0 : ℝ)) ≠ ((0 : ℝ), (2 : ℝ)) := by
    simp [Prod.ext_iff]
  exact ⟨⟨h0, h1, hne⟩, domain_safety ((2 : ℝ), (0 : ℝ)) ((0 : ℝ), (2 : ℝ)) 1 1 h0 h1 hne 0⟩

/-- Auxiliary function x - sin x, the increasing part of the Lagrange
time-of-flight expression. -/
def gsin (x : ℝ) : ℝ := x - Real.sin x

lemma gsin_mono : Monotone gsin := by
  intro x y hxy
  unfold gsin
  have hs := Real.sin_sub_sin y x
  have h1b : |(y - x) / 2| = (y - x) / 2 := abs_of_nonneg (by linarith)
  have h2 : |Real.cos ((y + x) / 2)| ≤ 1 := Real.abs_cos_le_one _
  have key : Real.sin y - Real.sin x ≤ y - x := by
    rw [hs]
    have e1 : Real.sin ((y - x) / 2) * Real.cos ((y + x) / 2) ≤
        |Real.sin ((y - x) / 2) * Real.cos ((y + x) / 2)| := le_abs_self _
    have e2 : |Real.sin ((y - x) / 2) * Real.cos ((y + x) / 2)| =
        |Real.sin ((y - x) / 2)| * |Real.cos ((y + x) / 2)| := abs_mul _ _
    have e3 : |Real.sin ((y - x) / 2)| * |Real.cos ((y + x) / 2)| ≤ |(y - x) / 2| * 1 :=
      mul_le_mul Real.abs_sin_le_abs h2 (abs_nonneg _) (abs_nonneg _)
    rw [h1b] at e3
    linarith
  linarith

lemma gsin_strict {x y : ℝ} (hxy : x < y) (hlt : y < x + 2 * Real.pi) : gsin x < gsin y := by
  unfold gsin
  have hs := Real.sin_sub_sin y x
  have hh1 : 0 < (y - x) / 2 := by linarith
  have hh2 : (y - x) / 2 < Real.pi := by linarith
  have hsp : 0 < Real.sin ((y - x) / 2) := Real.sin_pos_of_pos_of_lt_pi hh1 hh2
  have hslt : Real.sin ((y - x) / 2) < (y - x) / 2 := Real.sin_lt hh1
  have hc1 : Real.cos ((y + x) / 2) ≤ 1 := Real.cos_le_one _
  have key : Real.sin y - Real.sin x < y - x := by
    rw [hs]
    calc 2 * Real.sin ((y - x) / 2) * Real.cos ((y + x) / 2)
        ≤ 2 * Real.sin ((y - x) / 2) * 1 :=
          mul_le_mul_of_nonneg_left hc1 (by linarith)
      _ = 2 * Real.sin ((y - x) / 2) := by ring
      _ < 2 * ((y - x) / 2) := by linarith
      _ = y - x := by ring
  linarith

lemma gsin_pi : gsin Real.pi = Real.pi := by
  unfold gsin
  rw [Real.sin_pi]
  ring

lemma lagrange_long_rw (a mu s c : ℝ) :
    lagrange_eq a mu s c true =
      Real.sqrt (a ^ 3 / mu) *
        (2 * Real.pi - gsin (2 * Real.arcsin (Real.sqrt (s / (2 * a)))) -
          gsin (2 * Real.arcsin (Real.sqrt ((s - c) / (2 * a))))) := by
  show Real.sqrt (a ^ 3 / mu) *
      ((calc_alpha a s true - calc_beta a s c false) -
        (Real.sin (calc_alpha a s true) - Real.sin (calc_beta a s c false))) = _
  rw [show calc_alpha a s true = 2 * Real.pi - 2 * Real.arcsin (Real.sqrt (s / (2 * a))) from rfl,
    show calc_beta a s c false = 2 * Real.arcsin (Real.sqrt ((s - c) / (2 * a))) from rfl,
    Real.sin_two_pi_sub]
  unfold gsin
  ring

/-- Claim C8 amended: for a fixed mu > 0 and geometry 0 <= c <= s with
s > 0, the Lagrange time of flight on the long-arc branch is strictly
increasing in the semi-major axis over a >= s/2. On the short-arc branch
the claimed monotone increase fails (see the counterexample). -/
theorem lagrange_monotone_long (mu s c a1 a2 : ℝ) (hmu : 0 < mu) (hs : 0 < s)
    (hc0 : 0 ≤ c) (hcs : c ≤ s) (ha1 : s / 2 ≤ a1) (h12 : a1 < a2) :
    lagrange_eq a1 mu s c true < lagrange_eq a2 mu s c true := by
  have ha1p : 0 < a1 := lt_of_lt_of_le (by linarith) ha1
  have ha2p : 0 < a2 := lt_trans ha1p h12
  rw [lagrange_long_rw, lagrange_long_rw]
  set θ1 := 2 * Real.arcsin (Real.sqrt (s / (2 * a1))) with hth1def
  set θ2 := 2 * Real.arcsin (Real.sqrt (s / (2 * a2))) with hth2def
  set β1 := 2 * Real.arcsin (Real.sqrt ((s - c) / (2 * a1))) with hb1def
  set β2 := 2 * Real.arcsin (Real.sqrt ((s - c) / (2 * a2))) with hb2def
  have harg1 : s / (2 * a1) ≤ 1 := by
    rw [div_le_one (by linarith)]
    linarith
  have harg1p : 0 < s / (2 * a1) := div_pos hs (by linarith)
  have harg2p : 0 < s / (2 * a2) := div_pos hs (by linarith)
  have harg21 : s / (2 * a2) < s / (2 * a1) :=
    div_lt_div_of_pos_left hs (by linarith) (by linarith)
  have hsq21 : Real.sqrt (s / (2 * a2)) < Real.sqrt (s / (2 * a1)) :=
    Real.sqrt_lt_sqrt harg2p.le harg21
  have hsq1le : Real.sqrt (s / (2 * a1)) ≤ 1 := Real.sqrt_le_one.mpr harg1
  have hsq2le : Real.sqrt (s / (2 * a2)) ≤ 1 := le_trans hsq21.le hsq1le
  have hmem1 : Real.sqrt (s / (2 * a1)) ∈ Set.Icc (-1 : ℝ) 1 :=
    ⟨le_trans (by norm_num) (Real.sqrt_nonneg _), hsq1le⟩
  have hmem2 : Real.sqrt (s / (2 * a2)) ∈ Set.Icc (-1 : ℝ) 1 :=
    ⟨le_trans (by norm_num) (Real.sqrt_nonneg _), hsq2le⟩
  have hasin21 : Real.arcsin (Real.sqrt (s / (2 * a2))) < Real.arcsin (Real.sqrt (s / (2 * a1))) :=
    Real.strictMonoOn_arcsin hmem2 hmem1 hsq21
  have hθ21 : θ2 < θ1 := by
    rw [hth1def, hth2def]
    linarith
  have hθ1le : θ1 ≤ Real.pi := by
    have := Real.arcsin_le_pi_div_two (Real.sqrt (s / (2 * a1)))
    rw [hth1def]
    linarith
  have hθ2pos : 0 < θ2 := by
    have := Real.arcsin_pos.mpr (Real.sqrt_pos.mpr harg2p)
    rw [hth2def]
    linarith
  have hscn : 0 ≤ s - c := by linarith
  have hbarg21 : (s - c) / (2 * a2) ≤ (s - c) / (2 * a1) := by
    rw [div_le_div_iff₀ (by linarith) (by linarith)]
    nlinarith
  have hsqb21 : Real.sqrt ((s - c) / (2 * a2)) ≤ Real.sqrt ((s - c) / (2 * a1)) :=
    Real.sqrt_le_sqrt hbarg21
  have hβ21 : β2 ≤ β1 := by
    have := Real.monotone_arcsin hsqb21
    rw [hb1def, hb2def]
    linarith
  have hβ1le : β1 ≤ Real.pi := by
    have := Real.arcsin_le_pi_div_two (Real.sqrt ((s - c) / (2 * a1)))
    rw [hb1def]
    linarith
  have hβ2nn : 0 ≤ β2 := by
    have := Real.arcsin_nonneg.mpr (Real.sqrt_nonneg ((s - c) / (2 * a2)))
    rw [hb2def]
    linarith
  have hgθ : gsin θ2 < gsin θ1 := gsin_strict hθ21 (by linarith [Real.pi_pos])
  have hgβ : gsin β2 ≤ gsin β1 := gsin_mono hβ21
  have hgθ1le : gsin θ1 ≤ Real.pi :=
    calc gsin θ1 ≤ gsin Real.pi := gsin_mono hθ1le
      _ = Real.pi := gsin_pi
  have hgβ1le : gsin β1 ≤ Real.pi :=
    calc gsin β1 ≤ gsin Real.pi := gsin_mono hβ1le
      _ = Real.pi := gsin_pi
  have hP1 : 0 < Real.sqrt (a1 ^ 3 / mu) :=
    Real.sqrt_pos.mpr (div_pos (pow_pos ha1p 3) hmu)
  have hP21 : Real.sqrt (a1 ^ 3 / mu) ≤ Real.sqrt (a2 ^ 3 / mu) :=
    Real.sqrt_le_sqrt ((div_le_div_iff_of_pos_right hmu).mpr (pow_le_pow_left₀ ha1p.le h12.le 3))
  have hF12 : 2 * Real.pi - gsin θ1 - gsin β1 < 2 * Real.pi - gsin θ2 - gsin β2 := by
    linarith
  calc Real.sqrt (a1 ^ 3 / mu) * (2 * Real.pi - gsin θ1 - gsin β1)
      < Real.sqrt (a1 ^ 3 / mu) * (2 * Real.pi - gsin θ2 - gsin β2) :=
        mul_lt_mul_of_pos_left hF12 hP1
    _ ≤ Real.sqrt (a2 ^ 3 / mu) * (2 * Real.pi - gsin θ2 - gsin β2) :=
        mul_le_mul_of_nonneg_right hP21 (by linarith)

/-- Witness for lagrange_monotone_long at mu = 1, s = 2, c = 2, a1 = 1,
a2 = 4. -/
theorem lagrange_monotone_long_witness :
    ((0 : ℝ) < 1 ∧ (0 : ℝ) < 2 ∧ (0 : ℝ) ≤ 2 ∧ (2 : ℝ) ≤ 2 ∧
      (2 : ℝ) / 2 ≤ 1 ∧ (1 : ℝ) < 4) ∧
    lagrange_eq 1 1 2 2 true < lagrange_eq 4 1 2 2 true :=
  ⟨⟨by norm_num, by norm_num, by norm_num, by norm_num, by norm_num, by norm_num⟩,
    lagrange_monotone_long 1 2 2 1 4 (by norm_num) (by norm_num) (by norm_num) (by norm_num)
      (by norm_num) (by norm_num)⟩

/-- Claim C8 counterexample: on the short-arc branch with mu = 1, s = 2,
c = 2, moving the semi-major axis from a = 1 = s/2 up to a = 4 strictly
decreases the Lagrange time of flight, so the claimed monotone increase for
a fixed branch fails. -/
theorem lagrange_monotone_counterexample :
    (2 : ℝ) / 2 ≤ 1 ∧ (0 : ℝ) ≤ 2 ∧ (2 : ℝ) ≤ 2 ∧ (1 : ℝ) < 4 ∧
    lagrange_eq 4 1 2 2 false < lagrange_eq 1 1 2 2 false := by
  refine ⟨by norm_num, by norm_num, by norm_num, by norm_num, ?_⟩
  have hA1 : calc_alpha 1 2 false = Real.pi := by
    show 2 * Real.arcsin (Real.sqrt ((2 : ℝ) / (2 * 1))) = Real.pi
    rw [show (2 : ℝ) / (2 * 1) = 1 by norm_num, Real.sqrt_one, Real.arcsin_one]
    ring
  have hB1 : calc_beta 1 2 2 false = 0 := by
    show 2 * Real.arcsin (Real.sqrt (((2 : ℝ) - 2) / (2 * 1))) = 0
    rw [show ((2 : ℝ) - 2) / (2 * 1) = 0 by norm_num, Real.sqrt_zero, Real.arcsin_zero]
    ring
  have hv1 : lagrange_eq 1 1 2 2 false = Real.pi := by
    show Real.sqrt ((1 : ℝ) ^ 3 / 1) *
        ((calc_alpha 1 2 false - calc_beta 1 2 2 false) -
          (Real.sin (calc_alpha 1 2 false) - Real.sin (calc_beta 1 2 2 false))) = Real.pi
    rw [hA1, hB1, Real.sin_pi, Real.sin_zero, show (1 : ℝ) ^ 3 / 1 = 1 by norm_num,
      Real.sqrt_one]
    ring
  have hA4 : calc_alpha 4 2 false = Real.pi / 3 := by
    show 2 * Real.arcsin (Real.sqrt ((2 : ℝ) / (2 * 4))) = Real.pi / 3
    rw [show (2 : ℝ) / (2 * 4) = (1 / 2 : ℝ) ^ 2 by norm_num,
      Real.sqrt_sq (by norm_num : (0 : ℝ) ≤ 1 / 2),
      show (1 / 2 : ℝ) = Real.sin (Real.pi / 6) from (Real.sin_pi_div_six).symm,
      Real.arcsin_sin (by linarith [Real.pi_pos]) (by linarith [Real.pi_pos])]
    ring
  have hB4 : calc_beta 4 2 2 false = 0 := by
    show 2 * Real.arcsin (Real.sqrt (((2 : ℝ) - 2) / (2 * 4))) = 0
    rw [show ((2 : ℝ) - 2) / (2 * 4) = 0 by norm_num, Real.sqrt_zero, Real.arcsin_zero]
    ring
  have hv4 : lagrange_eq 4 1 2 2 false = 8 * (Real.pi / 3) - 8 * (Real.sqrt 3 / 2) := by
    show Real.sqrt ((4 : ℝ) ^ 3 / 1) *
        ((calc_alpha 4 2 false - calc_beta 4 2 2 false) -
          (Real.sin (calc_alpha 4 2 false) - Real.sin (calc_beta 4 2 2 false))) = _
    rw [hA4, hB4, Real.sin_zero, Real.sin_pi_div_three,
      show (4 : ℝ) ^ 3 / 1 = 8 ^ 2 by norm_num, Real.sqrt_sq (by norm_num : (0 : ℝ) ≤ 8)]
    ring
  rw [hv1, hv4]
  have hsqrt3 : (1.7 : ℝ) < Real.sqrt 3 := (Real.lt_sqrt (by norm_num)).mpr (by norm_num)
  have hpi : Real.pi < 3.15 := Real.pi_lt_d2
  linarith

lemma default_precision_eq : default_precision = ((10 : ℝ) ^ (8 : ℕ))⁻¹ := by
  unfold default_precision
  rw [zpow_neg]
  norm_num

lemma default_precision_pos : 0 < default_precision := by
  rw [default_precision_eq]
  positivity

lemma default_precision_le_one : default_precision ≤ 1 := by
  rw [default_precision_eq]
  norm_num

lemma lagrange_le_bound (a mu s c : ℝ) (la : Bool) :
    lagrange_eq a mu s c la ≤ Real.sqrt (a ^ 3 / mu) * (2 * Real.pi + 2) := by
  have hB : 0 ≤ calc_beta a s c false := by
    show 0 ≤ 2 * Real.arcsin (Real.sqrt ((s - c) / (2 * a)))
    have := Real.arcsin_nonneg.mpr (Real.sqrt_nonneg ((s - c) / (2 * a)))
    linarith
  have hA : calc_alpha a s la ≤ 2 * Real.pi := by
    cases la with
    | false =>
      show 2 * Real.arcsin (Real.sqrt (s / (2 * a))) ≤ 2 * Real.pi
      have h1 := Real.arcsin_le_pi_div_two (Real.sqrt (s / (2 * a)))
      linarith [Real.pi_pos]
    | true =>
      show 2 * Real.pi - 2 * Real.arcsin (Real.sqrt (s / (2 * a))) ≤ 2 * Real.pi
      have h1 := Real.arcsin_nonneg.mpr (Real.sqrt_nonneg (s / (2 * a)))
      linarith
  have hsinA : -1 ≤ Real.sin (calc_alpha a s la) := Real.neg_one_le_sin _
  have hsinB : Real.sin (calc_beta a s c false) ≤ 1 := Real.sin_le_one _
  have hE : (calc_alpha a s la - calc_beta a s c false) -
      (Real.sin (calc_alpha a s la) - Real.sin (calc_beta a s c false)) ≤ 2 * Real.pi + 2 := by
    linarith
  show Real.sqrt (a ^ 3 / mu) *
      ((calc_alpha a s la - calc_beta a s c false) -
        (Real.sin (calc_alpha a s la) - Real.sin (calc_beta a s c false))) ≤ _
  exact mul_le_mul_of_nonneg_left hE (Real.sqrt_nonneg _)

lemma lagrange_short_c0 (a mu s : ℝ) : lagrange_eq a mu s 0 false = 0 := by
  show Real.sqrt (a ^ 3 / mu) *
      ((calc_alpha a s false - calc_beta a s 0 false) -
        (Real.sin (calc_alpha a s false) - Real.sin (calc_beta a s 0 false))) = 0
  have h : calc_beta a s 0 false = calc_alpha a s false := by
    show 2 * Real.arcsin (Real.sqrt ((s - 0) / (2 * a))) =
      2 * Real.arcsin (Real.sqrt (s / (2 * a)))
    rw [sub_zero]
  rw [h]
  ring

lemma chord_deg : chord ((2 : ℝ), (0 : ℝ)) ((2 : ℝ), (0 : ℝ)) = 0 := by
  unfold chord
  rw [show ((2 : ℝ), (0 : ℝ)) - ((2 : ℝ), (0 : ℝ)) = ((0 : ℝ), (0 : ℝ)) by
    rw [Prod.mk_sub_mk]; norm_num]
  rw [vnorm_mk, show (0 : ℝ) ^ 2 + 0 ^ 2 = 0 by norm_num, Real.sqrt_zero]

lemma solve_long_arc_big :
    solve_long_arc ((2 : ℝ), (0 : ℝ)) ((2 : ℝ), (0 : ℝ)) (10 ^ 6) 8 = true := by
  unfold solve_long_arc
  rw [semiperim_deg, chord_deg, lagrange_short_c0,
    if_pos (by norm_num : (0 : ℝ) < 10 ^ 6)]

lemma solve_long_arc_small :
    solve_long_arc ((2 : ℝ), (0 : ℝ)) ((2 : ℝ), (0 : ℝ)) 0 8 = false := by
  unfold solve_long_arc
  rw [semiperim_deg, chord_deg, lagrange_short_c0, if_neg (lt_irrefl (0 : ℝ))]

lemma lag_long_le (x : ℝ) (h1 : (1 : ℝ) ≤ x) (h2 : x ≤ 20) :
    lagrange_eq x 8 2 0 true ≤ 288 := by
  have hb := lagrange_le_bound x 8 2 0 true
  have hx0 : (0 : ℝ) ≤ x := by linarith
  have hpow : x ^ 3 ≤ 8000 :=
    calc x ^ 3 ≤ 20 ^ 3 := pow_le_pow_left₀ hx0 h2 3
      _ = 8000 := by norm_num
  have hsq : Real.sqrt (x ^ 3 / 8) ≤ 32 :=
    calc Real.sqrt (x ^ 3 / 8) ≤ Real.sqrt (32 ^ 2) := Real.sqrt_le_sqrt (by nlinarith)
      _ = 32 := Real.sqrt_sq (by norm_num)
  have hpi : Real.pi < 3.15 := Real.pi_lt_d2
  have h2pi : 0 ≤ 2 * Real.pi + 2 := by linarith [Real.pi_pos]
  have hprod : Real.sqrt (x ^ 3 / 8) * (2 * Real.pi + 2) ≤ 32 * (2 * Real.pi + 2) :=
    mul_le_mul_of_nonneg_right hsq h2pi
  linarith

lemma bisectGo_drift (f : ℝ → ℝ) (t p lo b : ℝ) (hp : 0 ≤ p)
    (hfb : ∀ x, lo ≤ x → x ≤ b → f x - t < -p) :
    ∀ n : ℕ, 0 < n → ∀ a m : ℝ, lo ≤ a → a ≤ b →
      bisectGo f t p n a b m = b - (b - a) / 2 ^ n := by
  intro n
  induction n with
  | zero => intro h; exact absurd h (lt_irrefl 0)
  | succ n ih =>
    intro _ a m hla hab
    have hmid1 : a ≤ (a + b) / 2 := by linarith
    have hmid2 : (a + b) / 2 ≤ b := by linarith
    have hmidlo : lo ≤ (a + b) / 2 := le_trans hla hmid1
    have hvm : f ((a + b) / 2) - t < -p := hfb _ hmidlo hmid2
    have hva : f a - t < -p := hfb _ hla hab
    have hc : ¬ |f ((a + b) / 2) - t| ≤ p :=
      not_le.mpr (lt_of_lt_of_le (by linarith) (neg_le_abs _))
    have hsa : npsign (f a - t) = -1 := by
      unfold npsign
      rw [if_pos (by linarith : f a - t < 0)]
    have hsm : npsign (f ((a + b) / 2) - t) = -1 := by
      unfold npsign
      rw [if_pos (by linarith : f ((a + b) / 2) - t < 0)]
    rw [bisectGo_succ, if_neg hc, if_pos (by rw [hsa, hsm])]
    cases n with
    | zero =>
      rw [bisectGo_zero, pow_one]
      ring
    | succ n2 =>
      rw [ih (Nat.succ_pos n2) ((a + b) / 2) ((a + b) / 2) hmidlo hmid2]
      have h2a : (2 : ℝ) ^ (n2 + 1) ≠ 0 := by positivity
      have h2b : (2 : ℝ) ^ (n2 + 1 + 1) = 2 ^ (n2 + 1) * 2 := pow_succ 2 (n2 + 1)
      field_simp
      ring

lemma bisectGo_big_eval :
    bisectGo (fun x => lagrange_eq x 8 2 0 true) (10 ^ 6) default_precision 1000 1 20 0 =
      20 - 19 / 2 ^ 1000 := by
  have hfb : ∀ x : ℝ, (1 : ℝ) ≤ x → x ≤ 20 →
      (fun x => lagrange_eq x 8 2 0 true) x - 10 ^ 6 < -default_precision := by
    intro x hx1 hx2
    have hle := lag_long_le x hx1 hx2
    have := default_precision_le_one
    simp only []
    linarith
  have h := bisectGo_drift (fun x => lagrange_eq x 8 2 0 true) (10 ^ 6) default_precision 1 20
    default_precision_pos.le hfb 1000 (by norm_num) 1 0 (by norm_num) (by norm_num)
  rw [h, show (20 : ℝ) - 1 = 19 by norm_num]

lemma solve_a_big :
    solve_a ((2 : ℝ), (0 : ℝ)) ((2 : ℝ), (0 : ℝ)) (10 ^ 6) 8 = 20 - 19 / 2 ^ 1000 := by
  unfold solve_a
  rw [semiperim_deg, chord_deg, solve_long_arc_big,
    show default_max_iter = 1000 from rfl,
    show (2 : ℝ) / 2 = 1 by norm_num, show (20 : ℝ) * 1 = 20 by norm_num]
  exact bisectGo_big_eval

/-- Claim C3 counterexample: at r0 = r1 = (2, 0), mu = 8 and dt = 10^6 the
solver returns (after exhausting its 1000 iterations without converging) the
semi-major axis 20 - 19/2^1000, and re-evaluating the Lagrange equation there
with the selected branch flag misses dt by far more than the root-finder
precision. -/
theorem tof_roundtrip_counterexample :
    solve_a ((2 : ℝ), (0 : ℝ)) ((2 : ℝ), (0 : ℝ)) (10 ^ 6) 8 = 20 - 19 / 2 ^ 1000 ∧
    (solve_lambert ((2 : ℝ), (0 : ℝ)) ((2 : ℝ), (0 : ℝ)) (10 ^ 6) 8).map Prod.fst =
      some (20 - 19 / 2 ^ 1000) ∧
    default_precision <
      |lagrange_eq (20 - 19 / 2 ^ 1000) 8
          (semiperim ((2 : ℝ), (0 : ℝ)) ((2 : ℝ), (0 : ℝ)))
          (chord ((2 : ℝ), (0 : ℝ)) ((2 : ℝ), (0 : ℝ)))
          (solve_long_arc ((2 : ℝ), (0 : ℝ)) ((2 : ℝ), (0 : ℝ)) (10 ^ 6) 8) - 10 ^ 6| := by
  have hs : 0 < semiperim ((2 : ℝ), (0 : ℝ)) ((2 : ℝ), (0 : ℝ)) := by
    rw [semiperim_deg]
    norm_num
  refine ⟨solve_a_big, ?_, ?_⟩
  · rw [solve_lambert_eq _ _ _ _ hs]
    simp only [Option.map_some']
    rw [solve_a_big]
  · rw [semiperim_deg, chord_deg, solve_long_arc_big]
    have h21 : (1 : ℝ) ≤ 2 ^ 1000 := one_le_pow₀ (by norm_num)
    have hdiv : (19 : ℝ) / 2 ^ 1000 ≤ 19 := div_le_self (by norm_num) h21
    have hin1 : (1 : ℝ) ≤ 20 - 19 / 2 ^ 1000 := by linarith
    have hin2 : 20 - 19 / 2 ^ 1000 ≤ (20 : ℝ) := by
      have : (0 : ℝ) ≤ 19 / 2 ^ 1000 := by positivity
      linarith
    have hle := lag_long_le _ hin1 hin2
    have := default_precision_le_one
    exact lt_of_lt_of_le (by linarith) (neg_le_abs _)

/-- Claim C3 amended: when the bisection inside solve_lambert converges (the
early-exit residual test succeeds at some iteration below the budget), the
returned semi-major axis reproduces dt within the root-finder precision when
the Lagrange equation is re-evaluated with the selected branch flag; when the
budget is exhausted without convergence, the residual can exceed the
precision (see the counterexample). -/
theorem tof_roundtrip_amended (r0 r1 : Vec) (dt mu a : ℝ) (v : Vec × Vec)
    (hret : solve_lambert r0 r1 dt mu = some (a, v))
    (hconv : ∃ k, k < default_max_iter ∧
      |lagrange_eq (midAt (fun x => lagrange_eq x mu (semiperim r0 r1) (chord r0 r1)
          (solve_long_arc r0 r1 dt mu)) dt (semiperim r0 r1 / 2)
          (20 * (semiperim r0 r1 / 2)) k) mu (semiperim r0 r1) (chord r0 r1)
        (solve_long_arc r0 r1 dt mu) - dt| ≤ default_precision) :
    |lagrange_eq a mu (semiperim r0 r1) (chord r0 r1) (solve_long_arc r0 r1 dt mu) - dt| ≤
      default_precision := by
  set f := fun x => lagrange_eq x mu (semiperim r0 r1) (chord r0 r1) (solve_long_arc r0 r1 dt mu)
    with hfdef
  have hdef : solve_lambert r0 r1 dt mu = Option.map
      (fun x => (x, calc_velocity r0 r1 (r1 - r0) x
        (calc_alpha x (semiperim r0 r1) (solve_long_arc r0 r1 dt mu))
        (calc_beta x (semiperim r0 r1) (chord r0 r1) false) mu))
      (bisect f (semiperim r0 r1 / 2) (20 * (semiperim r0 r1 / 2)) dt
        default_max_iter default_precision) := rfl
  rw [hdef] at hret
  have hbis : bisect f (semiperim r0 r1 / 2) (20 * (semiperim r0 r1 / 2)) dt
      default_max_iter default_precision = some a := by
    cases hb : bisect f (semiperim r0 r1 / 2) (20 * (semiperim r0 r1 / 2)) dt
        default_max_iter default_precision with
    | none =>
      rw [hb] at hret
      simp at hret
    | some r =>
      rw [hb] at hret
      simp only [Option.map_some'] at hret
      have hpair := Option.some_inj.mp hret
      exact congrArg some (congrArg Prod.fst hpair)
  have hguard : semiperim r0 r1 / 2 < 20 * (semiperim r0 r1 / 2) ∧ 0 < default_max_iter := by
    by_contra hng
    unfold bisect at hbis
    rw [if_neg hng] at hbis
    cases hbis
  have ha_eq : a = bisectGo f dt default_precision default_max_iter
      (semiperim r0 r1 / 2) (20 * (semiperim r0 r1 / 2)) 0 := by
    unfold bisect at hbis
    rw [if_pos hguard] at hbis
    exact (Option.some_inj.mp hbis).symm
  rcases bisectGo_char f dt default_precision default_max_iter hguard.2
      (semiperim r0 r1 / 2) (20 * (semiperim r0 r1 / 2)) 0 with
    ⟨k, _, hconvk, _, heq⟩ | ⟨hall, _⟩
  · rw [ha_eq, heq]
    exact hconvk
  · rcases hconv with ⟨k, hk, hc2⟩
    exact absurd hc2 (not_le.mpr (hall k hk))

lemma solve_a_deg : solve_a ((2 : ℝ), (0 : ℝ)) ((2 : ℝ), (0 : ℝ)) 0 8 = 21 / 2 := by
  unfold solve_a
  rw [semiperim_deg, chord_deg, solve_long_arc_small,
    show default_max_iter = 1000 from rfl]
  norm_num
  rw [show (1000 : ℕ) = 999 + 1 from rfl, bisectGo_succ]
  have hcond : |(fun a => lagrange_eq a 8 2 0 false) (((1 : ℝ) + 20) / 2) - 0| ≤
      default_precision := by
    show |lagrange_eq (((1 : ℝ) + 20) / 2) 8 2 0 false - 0| ≤ default_precision
    rw [lagrange_short_c0]
    simpa using default_precision_pos.le
  rw [if_pos hcond]
  norm_num

/-- Witness for tof_roundtrip_amended on the degenerate geometry
r0 = r1 = (2, 0) with dt = 0 and mu = 8, where the very first midpoint
21/2 already satisfies the convergence test. -/
theorem tof_roundtrip_amended_witness :
    solve_lambert ((2 : ℝ), (0 : ℝ)) ((2 : ℝ), (0 : ℝ)) 0 8 = some (21 / 2,
      calc_velocity ((2 : ℝ), (0 : ℝ)) ((2 : ℝ), (0 : ℝ))
        (((2 : ℝ), (0 : ℝ)) - ((2 : ℝ), (0 : ℝ))) (21 / 2)
        (calc_alpha (21 / 2) (semiperim ((2 : ℝ), (0 : ℝ)) ((2 : ℝ), (0 : ℝ)))
          (solve_long_arc ((2 : ℝ), (0 : ℝ)) ((2 : ℝ), (0 : ℝ)) 0 8))
        (calc_beta (21 / 2) (semiperim ((2 : ℝ), (0 : ℝ)) ((2 : ℝ), (0 : ℝ)))
          (chord ((2 : ℝ), (0 : ℝ)) ((2 : ℝ), (0 : ℝ))) false) 8) ∧
    (∃ k, k < default_max_iter ∧
      |lagrange_eq (midAt (fun x => lagrange_eq x 8
          (semiperim ((2 : ℝ), (0 : ℝ)) ((2 : ℝ), (0 : ℝ)))
          (chord ((2 : ℝ), (0 : ℝ)) ((2 : ℝ), (0 : ℝ)))
          (solve_long_arc ((2 : ℝ), (0 : ℝ)) ((2 : ℝ), (0 : ℝ)) 0 8)) 0
          (semiperim ((2 : ℝ), (0 : ℝ)) ((2 : ℝ), (0 : ℝ)) / 2)
          (20 * (semiperim ((2 : ℝ), (0 : ℝ)) ((2 : ℝ), (0 : ℝ)) / 2)) k) 8
          (semiperim ((2 : ℝ), (0 : ℝ)) ((2 : ℝ), (0 : ℝ)))
          (chord ((2 : ℝ), (0 : ℝ)) ((2 : ℝ), (0 : ℝ)))
          (solve_long_arc ((2 : ℝ), (0 : ℝ)) ((2 : ℝ), (0 : ℝ)) 0 8) - 0| ≤
        default_precision) ∧
    |lagrange_eq (21 / 2) 8 (semiperim ((2 : ℝ), (0 : ℝ)) ((2 : ℝ), (0 : ℝ)))
        (chord ((2 : ℝ), (0 : ℝ)) ((2 : ℝ), (0 : ℝ)))
        (solve_long_arc ((2 : ℝ), (0 : ℝ)) ((2 : ℝ), (0 : ℝ)) 0 8) - 0| ≤
      default_precision := by
  have hs : 0 < semiperim ((2 : ℝ), (0 : ℝ)) ((2 : ℝ), (0 : ℝ)) := by
    rw [semiperim_deg]
    norm_num
  have h1 : solve_lambert ((2 : ℝ), (0 : ℝ)) ((2 : ℝ), (0 : ℝ)) 0 8 = some (21 / 2,
      calc_velocity ((2 : ℝ), (0 : ℝ)) ((2 : ℝ), (0 : ℝ))
        (((2 : ℝ), (0 : ℝ)) - ((2 : ℝ), (0 : ℝ))) (21 / 2)
        (calc_alpha (21 / 2) (semiperim ((2 : ℝ), (0 : ℝ)) ((2 : ℝ), (0 : ℝ)))
          (solve_long_arc ((2 : ℝ), (0 : ℝ)) ((2 : ℝ), (0 : ℝ)) 0 8))
        (calc_beta (21 / 2) (semiperim ((2 : ℝ), (0 : ℝ)) ((2 : ℝ), (0 : ℝ)))
          (chord ((2 : ℝ), (0 : ℝ)) ((2 : ℝ), (0 : ℝ))) false) 8) := by
    rw [solve_lambert_eq _ _ _ _ hs, solve_a_deg]
  have h2 : ∃ k, k < default_max_iter ∧
      |lagrange_eq (midAt (fun x => lagrange_eq x 8
          (semiperim ((2 : ℝ), (0 : ℝ)) ((2 : ℝ), (0 : ℝ)))
          (chord ((2 : ℝ), (0 : ℝ)) ((2 : ℝ), (0 : ℝ)))
          (solve_long_arc ((2 : ℝ), (0 : ℝ)) ((2 : ℝ), (0 : ℝ)) 0 8)) 0
          (semiperim ((2 : ℝ), (0 : ℝ)) ((2 : ℝ), (0 : ℝ)) / 2)
          (20 * (semiperim ((2 : ℝ), (0 : ℝ)) ((2 : ℝ), (0 : ℝ)) / 2)) k) 8
          (semiperim ((2 : ℝ), (0 : ℝ)) ((2 : ℝ), (0 : ℝ)))
          (chord ((2 : ℝ), (0 : ℝ)) ((2 : ℝ), (0 : ℝ)))
          (solve_long_arc ((2 : ℝ), (0 : ℝ)) ((2 : ℝ), (0 : ℝ)) 0 8) - 0| ≤
        default_precision := by
    refine ⟨0, by norm_num [default_max_iter], ?_⟩
    rw [semiperim_deg, chord_deg, solve_long_arc_small, lagrange_short_c0]
    simpa using default_precision_pos.le
  exact ⟨h1, h2, tof_roundtrip_amended _ _ _ _ _ _ h1 h2⟩

end

end Lambert
